import Mathlib

/-!
Shallow embedding of the `ndef-rs` crate (NDEF record/message codec and
NFC Type-2 tag serialization).  Bytes are modelled as `Nat` values; every
`as u8` / `as u16` / `as u32` cast of the Rust source is rendered as an
explicit `% 2^w` (or `&&& 0xff`) at the same place.  Fallible functions
return `Except String` mirroring the `anyhow` error strings of the source
(format arguments of the messages are elided).
-/

namespace Ndef

/-- The Type Name Format enum of `consts.rs` (`#[repr(u8)]`, values 0..7). -/
inductive TNF where
  | Empty
  | WellKnown
  | MimeMedia
  | AbsoluteUri
  | External
  | Unknown
  | Unchanged
  | Reserved
deriving DecidableEq, Repr

/-- The `u8` discriminant of each `TNF` variant. -/
def TNF.toRepr : TNF → Nat
  | .Empty => 0x00
  | .WellKnown => 0x01
  | .MimeMedia => 0x02
  | .AbsoluteUri => 0x03
  | .External => 0x04
  | .Unknown => 0x05
  | .Unchanged => 0x06
  | .Reserved => 0x07

/-- Lookup `TNF::from_repr` (derived by `strum::FromRepr`): exact match against the
eight discriminants, `None` for any other byte. -/
def TNF.fromRepr (n : Nat) : Option TNF :=
  match n with
  | 0x00 => some .Empty
  | 0x01 => some .WellKnown
  | 0x02 => some .MimeMedia
  | 0x03 => some .AbsoluteUri
  | 0x04 => some .External
  | 0x05 => some .Unknown
  | 0x06 => some .Unchanged
  | 0x07 => some .Reserved
  | _ => none

namespace RecordFlags

/-- Bit constant `RecordFlags::MB`. -/
def MB : Nat := 0x80

/-- Bit constant `RecordFlags::ME`. -/
def ME : Nat := 0x40

/-- Bit constant `RecordFlags::CF`. -/
def CF : Nat := 0x20

/-- Bit constant `RecordFlags::SR`. -/
def SR : Nat := 0x10

/-- Bit constant `RecordFlags::IL`. -/
def IL : Nat := 0x08

/-- Bit constant `RecordFlags::TNF` (the low three bits, as declared in `consts.rs`). -/
def TNFBITS : Nat := 0x07

end RecordFlags

/-- The bitflags test `flags & F == F` used throughout the source. -/
def hasFlag (flags mask : Nat) : Bool := flags &&& mask == mask

/-- Structure `NdefRecord` of `record.rs`.  The `flags` field is the raw flag byte
(`RecordFlags` is a `bitflags` wrapper around `u8`, and decoding uses
`from_bits_retain`, which keeps every bit). -/
structure NdefRecord where
  flags : Nat
  tnf : TNF
  recordType : List Nat
  id : Option (List Nat)
  payload : List Nat
deriving DecidableEq, Repr

/-- Little-endian 4-byte rendering of `write_u32::<LittleEndian>`. -/
def u32le (n : Nat) : List Nat :=
  [n % 256, n / 256 % 256, n / 65536 % 256, n / 16777216 % 256]

/-- Encoder `NdefRecord::to_buffer`: the caller-supplied `flag` overrides the MB and
ME bits of the stored flags, the flag byte is `rf.bits() | (tnf as u8 & 0x07)`,
the type length is written `as u8`, the payload length as one byte when the
stored SR flag is set and as a 4-byte little-endian `u32` otherwise, and an
ID length byte (`id.len() & 0xff`) is written exactly when an ID is present. -/
def NdefRecord.toBuffer (r : NdefRecord) (flag : Nat) : List Nat :=
  let rf1 := if hasFlag flag RecordFlags.MB then r.flags ||| RecordFlags.MB
             else r.flags &&& 0x7f
  let rf2 := if hasFlag flag RecordFlags.ME then rf1 ||| RecordFlags.ME
             else rf1 &&& 0xbf
  let flagByte := rf2 ||| (TNF.toRepr r.tnf &&& 0x07)
  [flagByte, r.recordType.length % 256]
    ++ (if hasFlag r.flags RecordFlags.SR then [r.payload.length % 256]
        else u32le (r.payload.length % 4294967296))
    ++ (match r.id with
        | some i => [i.length &&& 0xff]
        | none => [])
    ++ r.recordType
    ++ (match r.id with
        | some i => i
        | none => [])
    ++ r.payload

/-- Reader `read_u8` on the cursor: one byte or the given error. -/
def readU8 (input : List Nat) (msg : String) : Except String (Nat × List Nat) :=
  match input with
  | [] => .error msg
  | b :: rest => .ok (b, rest)

/-- Reader `read_u32::<LittleEndian>` on the cursor: four bytes or the given error. -/
def readU32le (input : List Nat) (msg : String) : Except String (Nat × List Nat) :=
  match input with
  | b0 :: b1 :: b2 :: b3 :: rest =>
      .ok (b0 + b1 * 256 + b2 * 65536 + b3 * 16777216, rest)
  | _ => .error msg

/-- Reader `read_exact` into an `n`-byte buffer: succeeds only when `n` bytes remain. -/
def readExact (n : Nat) (input : List Nat) (msg : String) :
    Except String (List Nat × List Nat) :=
  if n ≤ input.length then .ok (input.take n, input.drop n) else .error msg

/-- Decoder `NdefRecord::decode`.  Note that the source looks up the TNF with
`TNF::from_repr(flags & 0x0f)` — a four-bit mask — and stores the flags with
`RecordFlags::from_bits_retain(flags)`, keeping the whole raw byte. -/
def NdefRecord.decode (input : List Nat) :
    Except String (NdefRecord × List Nat) :=
  match readU8 input "read error" with
  | .error e => .error e
  | .ok (flag, r1) =>
    match TNF.fromRepr (flag &&& 0x0f) with
    | none => .error "unknown tnf"
    | some tnf =>
      match readU8 r1 "read type length error" with
      | .error e => .error e
      | .ok (typeLen, r2) =>
        match (if hasFlag flag RecordFlags.SR then
                 readU8 r2 "read payload length error"
               else readU32le r2 "read payload length error") with
        | .error e => .error e
        | .ok (payloadLen, r3) =>
          match (if hasFlag flag RecordFlags.IL then
                   readU8 r3 "read id length error"
                 else .ok (0, r3)) with
          | .error e => .error e
          | .ok (idLen, r4) =>
            match readExact typeLen r4 "read record type error" with
            | .error e => .error e
            | .ok (recordType, r5) =>
              match (if 0 < idLen then
                       match readExact idLen r5 "read record id error" with
                       | .error e => .error e
                       | .ok (i, r) => .ok (some i, r)
                     else .ok (none, r5) :
                     Except String (Option (List Nat) × List Nat)) with
              | .error e => .error e
              | .ok (idOpt, r6) =>
                match readExact payloadLen r6 "read payload error" with
                | .error e => .error e
                | .ok (payload, r7) =>
                    .ok ({ flags := flag, tnf := tnf, recordType := recordType,
                           id := idOpt, payload := payload }, r7)

/-- Builder state `NdefRecordBuilder` (`record.rs`): the same fields as the record. -/
structure NdefRecordBuilder where
  flags : Nat
  tnf : TNF
  recordType : List Nat
  id : Option (List Nat)
  payload : List Nat
deriving DecidableEq, Repr

/-- Constructor `NdefRecordBuilder::new()`: empty flags, `TNF::Empty`, empty fields. -/
def NdefRecordBuilder.new : NdefRecordBuilder :=
  { flags := 0, tnf := .Empty, recordType := [], id := none, payload := [] }

/-- One chained call on the builder (`id`, `tnf`, `payload`; `uri_payload`
delegates to `payload` and is modelled through it). -/
inductive BuilderOp where
  | opId (i : List Nat)
  | opTnf (t : TNF)
  | opPayload (ty p : List Nat)
deriving DecidableEq, Repr

/-- Effect of a single builder call, transcribed from `record.rs`:
`id` ignores an empty argument and otherwise sets IL, `payload` replaces the
type and payload and ORs in SR when the payload is shorter than 256 bytes. -/
def NdefRecordBuilder.applyOp (b : NdefRecordBuilder) : BuilderOp → NdefRecordBuilder
  | .opId i =>
      if i.length = 0 then b
      else { b with id := some i, flags := b.flags ||| RecordFlags.IL }
  | .opTnf t => { b with tnf := t }
  | .opPayload ty p =>
      { b with payload := p, recordType := ty,
               flags := if p.length < 256 then b.flags ||| RecordFlags.SR
                        else b.flags }

/-- The builder state after a sequence of chained calls starting from
`NdefRecordBuilder::new()`. -/
def NdefRecordBuilder.applyOps (ops : List BuilderOp) : NdefRecordBuilder :=
  ops.foldl NdefRecordBuilder.applyOp NdefRecordBuilder.new

/-- Finisher `NdefRecordBuilder::build`: the only validation is the `TNF::Empty`
check; an `Empty` builder yields a record with cleared fields. -/
def NdefRecordBuilder.build (b : NdefRecordBuilder) : Except String NdefRecord :=
  if b.tnf = TNF.Empty ∧ (b.payload ≠ [] ∨ b.recordType ≠ [] ∨ b.id ≠ none) then
    .error "Invalid empty record"
  else if b.tnf = TNF.Empty then
    .ok { flags := b.flags, tnf := b.tnf, recordType := [], id := none, payload := [] }
  else
    .ok { flags := b.flags, tnf := b.tnf, recordType := b.recordType,
          id := b.id, payload := b.payload }

/-- The per-record MB/ME flag argument chosen by `NdefMessage::to_buffer`
for the record at `index` of a message of `len` records. -/
def msgFlag (len index : Nat) : Nat :=
  if len = 1 then RecordFlags.MB ||| RecordFlags.ME
  else if index = 0 ∧ 1 < len then RecordFlags.MB
  else if index = len - 1 then RecordFlags.ME
  else 0

/-- Encoder `NdefMessage::to_buffer`: concatenation of every record's encoding with
the position-dependent MB/ME flags.  The cursor writes of the source cannot
fail, so the function is pure. -/
def NdefMessage.toBuffer (records : List NdefRecord) : List Nat :=
  (records.enum.map fun p => NdefRecord.toBuffer p.2 (msgFlag records.length p.1)).flatten

/-- The decode loop of `NdefMessage::decode`, with an explicit fuel
parameter used only to present the loop as a total function: the loop body
consumes at least one byte per iteration, so with fuel `data.length + 1`
the fuel-exhaustion branch is unreachable (see `decodeLoopF_characterization`).
`first` tracks `records.len() == 0`; the cursor-exhaustion test
`position >= total` is `rest.isEmpty`. -/
def decodeLoopF : Nat → List Nat → Bool → Except String (List NdefRecord)
  | 0, _, _ => .error "decode loop fuel exhausted"
  | fuel + 1, input, first =>
    match NdefRecord.decode input with
    | .error e => .error e
    | .ok (record, rest) =>
      if hasFlag record.flags RecordFlags.MB && !first then
        .error "record MB flag is set , but not first record"
      else if rest.isEmpty then
        if !hasFlag record.flags RecordFlags.ME then
          .error "record ME flag is not set"
        else .ok [record]
      else
        match decodeLoopF fuel rest false with
        | .error e => .error e
        | .ok tail => .ok (record :: tail)

/-- Decoder `NdefMessage::decode`. -/
def NdefMessage.decode (data : List Nat) : Except String (List NdefRecord) :=
  decodeLoopF (data.length + 1) data true

/-- UTF-8 bytes of an ASCII string literal. -/
def strBytes (s : String) : List Nat := s.data.map Char.toNat

/-- Constant `RTD_URI` = `b"U"`. -/
def RTD_URI : List Nat := [0x55]

/-- Constant `RTD_TEXT` = `b"T"`. -/
def RTD_TEXT : List Nat := [0x54]

/-- The `URI_ABBREVIATIONS` table of `consts.rs` as (byte, uri-prefix) pairs. -/
def uriAbbreviations : List (Nat × List Nat) :=
  [ (0x00, strBytes ""),
    (0x01, strBytes "http://www."),
    (0x02, strBytes "https://www."),
    (0x03, strBytes "http://"),
    (0x04, strBytes "https://"),
    (0x05, strBytes "tel:"),
    (0x06, strBytes "mailto:"),
    (0x07, strBytes "ftp://anonymous:anonymous@"),
    (0x08, strBytes "ftp://ftp."),
    (0x09, strBytes "ftps://"),
    (0x0A, strBytes "sftp://"),
    (0x0B, strBytes "smb://"),
    (0x0C, strBytes "nfs://"),
    (0x0D, strBytes "ftp://"),
    (0x0E, strBytes "dav://"),
    (0x0F, strBytes "news:"),
    (0x10, strBytes "telnet://"),
    (0x11, strBytes "imap:"),
    (0x12, strBytes "rtsp://"),
    (0x13, strBytes "urn:"),
    (0x14, strBytes "pop:"),
    (0x15, strBytes "sip:"),
    (0x16, strBytes "sips:"),
    (0x17, strBytes "tftp:"),
    (0x18, strBytes "btspp://"),
    (0x19, strBytes "btl2cap://"),
    (0x1A, strBytes "btgoep://"),
    (0x1B, strBytes "tcpobex://"),
    (0x1C, strBytes "irdaobex://"),
    (0x1D, strBytes "file://"),
    (0x1E, strBytes "urn:epc:id:"),
    (0x1F, strBytes "urn:epc:tag:"),
    (0x20, strBytes "urn:epc:pat:"),
    (0x21, strBytes "urn:epc:raw:"),
    (0x22, strBytes "urn:epc:"),
    (0x23, strBytes "urn:nfc:") ]

/-- Iteration of `RecordUri::guess_abbrev` over the table: skip the NONE
entry (equality on `UriAbbrev` compares only the byte), return the first
entry whose prefix starts the URI together with the URI's remainder. -/
def guessAbbrevGo (uri : List Nat) : List (Nat × List Nat) → Nat × List Nat
  | [] => (0x00, uri)
  | e :: rest =>
    if e.1 = 0x00 then guessAbbrevGo uri rest
    else if e.2.isPrefixOf uri then (e.1, uri.drop e.2.length)
    else guessAbbrevGo uri rest

/-- Function `RecordUri::guess_abbrev` (also `UriPayload::guess_abbrev`). -/
def guessAbbrev (uri : List Nat) : Nat × List Nat :=
  guessAbbrevGo uri uriAbbreviations

/-- Conversion `impl From<RecordUri> for Vec<u8>`: abbreviation byte followed by the
remaining URI bytes. -/
def recordUriToVec (u : Nat × List Nat) : List Nat := u.1 :: u.2

/-- Lookup `get_uri_abbreviation`: first table entry with the given byte. -/
def getUriAbbreviation (b : Nat) : Option Nat :=
  (uriAbbreviations.find? fun e => e.1 == b).map fun e => e.1

/-- The `NdefError` variants used by the payload reconstructions. -/
inductive NdefError where
  | InvalidTnf
  | InvalidRecordType
  | InvalidEncoding
deriving DecidableEq, Repr

/-- RFC 3629 UTF-8 validity, the check performed by `std::str::from_utf8`. -/
def utf8Valid : List Nat → Bool
  | [] => true
  | b :: rest =>
    if b < 0x80 then utf8Valid rest
    else if 0xc2 ≤ b ∧ b ≤ 0xdf then
      match rest with
      | c1 :: r => (0x80 ≤ c1 && c1 ≤ 0xbf) && utf8Valid r
      | [] => false
    else if b = 0xe0 then
      match rest with
      | c1 :: c2 :: r =>
          (0xa0 ≤ c1 && c1 ≤ 0xbf) && (0x80 ≤ c2 && c2 ≤ 0xbf) && utf8Valid r
      | _ => false
    else if b = 0xed then
      match rest with
      | c1 :: c2 :: r =>
          (0x80 ≤ c1 && c1 ≤ 0x9f) && (0x80 ≤ c2 && c2 ≤ 0xbf) && utf8Valid r
      | _ => false
    else if 0xe1 ≤ b ∧ b ≤ 0xef then
      match rest with
      | c1 :: c2 :: r =>
          (0x80 ≤ c1 && c1 ≤ 0xbf) && (0x80 ≤ c2 && c2 ≤ 0xbf) && utf8Valid r
      | _ => false
    else if b = 0xf0 then
      match rest with
      | c1 :: c2 :: c3 :: r =>
          (0x90 ≤ c1 && c1 ≤ 0xbf) && (0x80 ≤ c2 && c2 ≤ 0xbf) &&
            (0x80 ≤ c3 && c3 ≤ 0xbf) && utf8Valid r
      | _ => false
    else if b = 0xf4 then
      match rest with
      | c1 :: c2 :: c3 :: r =>
          (0x80 ≤ c1 && c1 ≤ 0x8f) && (0x80 ≤ c2 && c2 ≤ 0xbf) &&
            (0x80 ≤ c3 && c3 ≤ 0xbf) && utf8Valid r
      | _ => false
    else if 0xf1 ≤ b ∧ b ≤ 0xf3 then
      match rest with
      | c1 :: c2 :: c3 :: r =>
          (0x80 ≤ c1 && c1 ≤ 0xbf) && (0x80 ≤ c2 && c2 ≤ 0xbf) &&
            (0x80 ≤ c3 && c3 ≤ 0xbf) && utf8Valid r
      | _ => false
    else false

/-- The reconstructed `UriPayload` (abbreviation byte plus URI bytes). -/
structure UriPayload where
  abbrevByte : Nat
  uriBytes : List Nat
deriving DecidableEq, Repr

/-- Reconstruction `impl TryFrom<&NdefRecord> for UriPayload` (`payload.rs`).  The source
indexes `payload[0]` after the TNF and record-type checks without testing
for emptiness, which panics on an empty payload; the panic is modelled as
`none`, a returned `Result` as `some`. -/
def UriPayload.tryFrom (r : NdefRecord) : Option (Except NdefError UriPayload) :=
  if r.tnf ≠ TNF.WellKnown then some (.error .InvalidTnf)
  else if r.recordType ≠ RTD_URI then some (.error .InvalidRecordType)
  else
    match r.payload with
    | [] => none
    | b :: rest =>
      let ab := (getUriAbbreviation b).getD 0x00
      if utf8Valid rest then some (.ok { abbrevByte := ab, uriBytes := rest })
      else some (.error .InvalidEncoding)

/-- The TLV tag enum of `tag.rs`. -/
inductive TlvTag where
  | NULL
  | LockControl
  | MemoryControl
  | NDEFMessage
  | Proprietary
  | Terminator
deriving DecidableEq, Repr

/-- Discriminant of each `TlvTag`. -/
def TlvTag.toByte : TlvTag → Nat
  | .NULL => 0x00
  | .LockControl => 0x01
  | .MemoryControl => 0x02
  | .NDEFMessage => 0x03
  | .Proprietary => 0xFD
  | .Terminator => 0xFE

/-- Structure `TlvValue` of `tag.rs`. -/
structure TlvValue where
  tag : TlvTag
  value : Option (List Nat)
deriving DecidableEq, Repr

/-- Constructor `TlvValue::message`. -/
def TlvValue.message (v : List Nat) : TlvValue :=
  { tag := .NDEFMessage, value := some v }

/-- Constructor `TlvValue::terminator`. -/
def TlvValue.terminator : TlvValue :=
  { tag := .Terminator, value := none }

/-- Serializer `TlvValue::to_bytes`: the initial `vec![tag]` is overwritten in place by
the first `write_u8(tag)` (the cursor starts at position 0), so the output
is the tag byte followed, when a value is present, by a one-byte length for
lengths below `0xff` and by an `0xff` marker plus little-endian `u16`
length (`value.len() as u16`) otherwise. -/
def TlvValue.toBytes (t : TlvValue) : List Nat :=
  match t.value with
  | none => [t.tag.toByte]
  | some v =>
    if v.length = 0 then [t.tag.toByte, 0x00]
    else if v.length < 0xff then [t.tag.toByte, v.length % 256] ++ v
    else [t.tag.toByte, 0xff, v.length % 65536 % 256, v.length % 65536 / 256 % 256] ++ v

/-- Structure `NFT2Tag`: the four capability-container bytes and the TLV list.  In the
source every field is private and the struct is only produced by
`TagBuilder::build`, so `cc2` (the size byte) is a `u8`. -/
structure NFT2Tag where
  cc0 : Nat
  cc1 : Nat
  cc2 : Nat
  cc3 : Nat
  tlvs : List TlvValue
deriving Repr

/-- Accessor `NFT2Tag::capacity_in_bytes` = `cc[2] as u16 * 8`. -/
def NFT2Tag.capacityInBytes (t : NFT2Tag) : Nat := t.cc2 * 8

/-- Serializer `NFT2Tag::to_bytes`: rejects a capacity above 2048, then rejects a
concatenated TLV payload whose length (`buffer.len() as u16`) exceeds the
capacity, else returns the 4 header bytes followed by the TLV bytes. -/
def NFT2Tag.toBytes (t : NFT2Tag) : Except String (List Nat) :=
  if 2048 < t.capacityInBytes then .error "Invalid memory size"
  else
    let buffer := (t.tlvs.map TlvValue.toBytes).flatten
    if t.capacityInBytes < buffer.length % 65536 then .error "Invalid memory size"
    else .ok ([t.cc0, t.cc1, t.cc2, t.cc3] ++ buffer)

/-- Builder state `TagBuilder`. -/
structure TagBuilder where
  nfcHeader : Nat
  nfcVersion : Nat
  memorySize : Nat
  access : Nat
  tlvs : List TlvValue
deriving Repr

/-- Constructor `TagBuilder::new()`. -/
def TagBuilder.new : TagBuilder :=
  { nfcHeader := 0xe1, nfcVersion := 0x10, memorySize := 0x00,
    access := 0x0f, tlvs := [] }

/-- Setter `TagBuilder::size_in_bytes`: `n = (num_of_bytes - 1) / 8` in `u16`
arithmetic, stored as `n as u8 + 1` in `u8` arithmetic. -/
def TagBuilder.sizeInBytes (b : TagBuilder) (numOfBytes : Nat) : TagBuilder :=
  let n := (numOfBytes + 65536 - 1) % 65536 / 8
  { b with memorySize := (n % 256 + 1) % 256 }

/-- Setter `TagBuilder::add_tlv`. -/
def TagBuilder.addTlv (b : TagBuilder) (v : TlvValue) : TagBuilder :=
  { b with tlvs := b.tlvs ++ [v] }

/-- Finisher `TagBuilder::build`. -/
def TagBuilder.build (b : TagBuilder) : NFT2Tag :=
  { cc0 := b.nfcHeader, cc1 := b.nfcVersion, cc2 := b.memorySize,
    cc3 := b.access, tlvs := b.tlvs }

/-- A byte stream parses structurally into the given nonempty record list:
`NdefRecord::decode` succeeds on each chained remainder and the last record
exhausts the input exactly. -/
inductive ParsesInto : List Nat → List NdefRecord → Prop where
  | single (data : List Nat) (r : NdefRecord)
      (h : NdefRecord.decode data = .ok (r, [])) : ParsesInto data [r]
  | cons (data rest : List Nat) (r : NdefRecord) (rs : List NdefRecord)
      (h : NdefRecord.decode data = .ok (r, rest)) (hne : rest ≠ [])
      (ht : ParsesInto rest rs) : ParsesInto data (r :: rs)

/-- The message-begin positioning condition checked by the decode loop:
no record may carry MB except (when `first` is true) the very first one. -/
def mbOk (first : Bool) (rs : List NdefRecord) : Bool :=
  (if first then rs.tail else rs).all fun r => !hasFlag r.flags RecordFlags.MB

/-- The message-end condition checked by the decode loop: the record that
exhausts the input carries ME. -/
def lastHasME (rs : List NdefRecord) : Bool :=
  match rs.getLast? with
  | some r => hasFlag r.flags RecordFlags.ME
  | none => false

/-- The flag bytes reachable in a builder state: the builder only ever ORs
in SR and IL. -/
def flagsSmall (f : Nat) : Prop := f = 0 ∨ f = 8 ∨ f = 16 ∨ f = 24

/-- Call sequence of the repository test `test_multiple_records`, record 1:
a WellKnown URI record for `weixin://dl/business`. -/
def c5ops1 : List BuilderOp :=
  [ .opTnf .WellKnown,
    .opPayload RTD_URI (recordUriToVec (guessAbbrev (strBytes "weixin://dl/business"))) ]

/-- Call sequence of the repository test `test_multiple_records`, record 2:
an External record `android.com:pkg` / `com.tencent.mm`. -/
def c5ops2 : List BuilderOp :=
  [ .opTnf .External,
    .opPayload (strBytes "android.com:pkg") (strBytes "com.tencent.mm") ]

/-- Building both records of the two-record vector and encoding the
message. -/
def c5buffer : Except String (List Nat) :=
  match NdefRecordBuilder.build (NdefRecordBuilder.applyOps c5ops1),
        NdefRecordBuilder.build (NdefRecordBuilder.applyOps c5ops2) with
  | .ok r1, .ok r2 => .ok (NdefMessage.toBuffer [r1, r2])
  | .error e, _ => .error e
  | _, .error e => .error e

/-- The fixed 58-byte expected encoding
`910115550077656978696e3a2f2f646c2f627573696e657373540f0e616e64726f69642e636f6d3a706b67636f6d2e74656e63656e742e6d6d`. -/
def c5Bytes : List Nat :=
  [0x91, 0x01, 0x15, 0x55, 0x00,
   0x77, 0x65, 0x69, 0x78, 0x69, 0x6e, 0x3a, 0x2f, 0x2f, 0x64, 0x6c, 0x2f,
   0x62, 0x75, 0x73, 0x69, 0x6e, 0x65, 0x73, 0x73,
   0x54, 0x0f, 0x0e,
   0x61, 0x6e, 0x64, 0x72, 0x6f, 0x69, 0x64, 0x2e, 0x63, 0x6f, 0x6d, 0x3a,
   0x70, 0x6b, 0x67,
   0x63, 0x6f, 0x6d, 0x2e, 0x74, 0x65, 0x6e, 0x63, 0x65, 0x6e, 0x74, 0x2e,
   0x6d, 0x6d]

/-- A builder call sequence producing a record with an ID: WellKnown `U`
record, one-byte payload, one-byte ID. -/
def c1ops : List BuilderOp :=
  [ .opTnf .WellKnown, .opPayload [0x55] [0x00], .opId [0x41] ]

/-- Encode the single-record message built from `c1ops` and decode the
resulting bytes back. -/
def c1roundtrip : Except String (List NdefRecord) :=
  match NdefRecordBuilder.build (NdefRecordBuilder.applyOps c1ops) with
  | .error e => .error e
  | .ok r => NdefMessage.decode (NdefMessage.toBuffer [r])

/-- An otherwise well-formed record encoding whose flag byte `0x09` has the
IL bit (0x08) set and TNF bits `001` (WellKnown): type length 1, 4-byte
payload length 0, ID length 1, type `U`, ID `A`. -/
def c2input : List Nat :=
  [0x09, 0x01, 0x00, 0x00, 0x00, 0x00, 0x01, 0x55, 0x41]

/-- A single-record wire message: flag `0xd1` (MB, ME, SR, TNF 1), type
length 1, payload length 1, type `U`, payload `0x00`. -/
def wire1 : List Nat := [0xd1, 0x01, 0x01, 0x55, 0x00]

/-- The record decoded from `wire1` (`from_bits_retain` keeps the raw flag
byte `0xd1`). -/
def wire1rec : NdefRecord :=
  { flags := 0xd1, tnf := .WellKnown, recordType := [0x55], id := none,
    payload := [0x00] }

/-- Builder call sequence calling `payload` twice: first a 255-byte
payload, then a 256-byte payload. -/
def c4doubleOps : List BuilderOp :=
  [ .opTnf .External, .opPayload [0x54] (List.replicate 255 0xab),
    .opPayload [0x54] (List.replicate 256 0xab) ]

/-- Single-call builder sequence with a 255-byte payload. -/
def c4ops255 : List BuilderOp :=
  [ .opTnf .External, .opPayload [0x54] (List.replicate 255 0xab) ]

/-- Single-call builder sequence with a 256-byte payload. -/
def c4ops256 : List BuilderOp :=
  [ .opTnf .External, .opPayload [0x54] (List.replicate 256 0xab) ]

/-- The record produced by `c4ops255` (SR set). -/
def c4rec255 : NdefRecord :=
  { flags := 0x10, tnf := .External, recordType := [0x54], id := none,
    payload := List.replicate 255 0xab }

/-- The record produced by `c4ops256` (SR clear). -/
def c4rec256 : NdefRecord :=
  { flags := 0, tnf := .External, recordType := [0x54], id := none,
    payload := List.replicate 256 0xab }

/-- A builder state whose record type is 256 bytes long. -/
def c6bigOps : List BuilderOp :=
  [ .opTnf .External, .opPayload (List.replicate 256 0x41) [0x01] ]

/-- The record `build` accepts for `c6bigOps` (256-byte type, SR set). -/
def c6bigRec : NdefRecord :=
  { flags := 0x10, tnf := .External, recordType := List.replicate 256 0x41,
    id := none, payload := [0x01] }

/-- A tag declared with 16 bytes of capacity (`size_in_bytes(16)` stores
size byte 2) holding a single 17-byte NDEF-message TLV (19 serialized
bytes). -/
def tag16over : NFT2Tag :=
  ((TagBuilder.new.sizeInBytes 16).addTlv
    (TlvValue.message (List.replicate 17 0))).build

/-- Builder call sequence for a plain WellKnown `U` record with a one-byte
payload and no ID. -/
def c9ops : List BuilderOp := [ .opTnf .WellKnown, .opPayload [0x55] [0x00] ]

/-- The record built from `c9ops`. -/
def c9rec : NdefRecord :=
  { flags := 0x10, tnf := .WellKnown, recordType := [0x55], id := none,
    payload := [0x00] }

/-- A builder-reachable WellKnown `U` record with an empty payload. -/
def c10rec : NdefRecord :=
  { flags := 0x10, tnf := .WellKnown, recordType := [0x55], id := none,
    payload := [] }

/-- Builder call sequence producing `c10rec`. -/
def c10ops : List BuilderOp := [ .opTnf .WellKnown, .opPayload [0x55] [] ]

theorem readU8_eq {input : List Nat} {m : String} {b : Nat} {rest : List Nat}
    (h : readU8 input m = .ok (b, rest)) : input = b :: rest := by
  cases input with
  | nil => simp [readU8] at h
  | cons a t =>
    simp [readU8] at h
    rw [h.1, h.2]

theorem readU32le_len {input : List Nat} {m : String} {v : Nat} {rest : List Nat}
    (h : readU32le input m = .ok (v, rest)) : rest.length + 4 = input.length := by
  unfold readU32le at h
  split at h
  · next b0 b1 b2 b3 rest' =>
      simp at h
      rw [← h.2]
      simp
  · simp at h

theorem readExact_len {n : Nat} {input : List Nat} {m : String}
    {bs rest : List Nat} (h : readExact n input m = .ok (bs, rest)) :
    rest.length ≤ input.length := by
  unfold readExact at h
  split at h
  · simp at h
    rw [← h.2]
    simp
  · simp at h

/-- A successful `NdefRecord::decode` stores the raw first byte as the
record's flags and strictly consumes input. -/
theorem decode_ok_facts {input : List Nat} {r : NdefRecord} {rest : List Nat}
    (h : NdefRecord.decode input = .ok (r, rest)) :
    r.flags = input.headD 0 ∧ rest.length < input.length := by
  unfold NdefRecord.decode at h
  split at h
  · simp at h
  next flag r1 hread =>
  split at h
  · simp at h
  next tnf hfr =>
  split at h
  · simp at h
  next typeLen r2 hread2 =>
  split at h
  · simp at h
  next payloadLen r3 hread3 =>
  split at h
  · simp at h
  next idLen r4 hread4 =>
  split at h
  · simp at h
  next recordType r5 hread5 =>
  split at h
  · simp at h
  next idOpt r6 hread6 =>
  split at h
  · simp at h
  next payload r7 hread7 =>
  simp only [Except.ok.injEq, Prod.mk.injEq] at h
  obtain ⟨hrec, hrest⟩ := h
  have hin : input = flag :: r1 := readU8_eq hread
  have h1 : r1.length + 1 = input.length := by rw [hin]; simp
  have h2 : r2.length + 1 = r1.length := by
    have := readU8_eq hread2
    rw [this]; simp
  have h3 : r3.length ≤ r2.length := by
    split at hread3
    · have := readU8_eq hread3
      rw [this]; simp
    · have := readU32le_len hread3
      omega
  have h4 : r4.length ≤ r3.length := by
    split at hread4
    · have := readU8_eq hread4
      rw [this]; simp
    · simp at hread4
      rw [← hread4.2]
  have h5 : r5.length ≤ r4.length := readExact_len hread5
  have h6 : r6.length ≤ r5.length := by
    split at hread6
    · split at hread6
      · simp at hread6
      · next i rr hex =>
          simp at hread6
          rw [← hread6.2]
          exact readExact_len hex
    · simp at hread6
      rw [← hread6.2]
  have h7 : r7.length ≤ r6.length := readExact_len hread7
  have h8 : rest.length = r7.length := by rw [hrest]
  constructor
  · rw [← hrec, hin]
    rfl
  · omega

theorem parsesInto_ne_nil {data : List Nat} {rs : List NdefRecord}
    (h : ParsesInto data rs) : rs ≠ [] := by
  cases h <;> simp

theorem lastHasME_cons {r : NdefRecord} {rs : List NdefRecord} (h : rs ≠ []) :
    lastHasME (r :: rs) = lastHasME rs := by
  cases rs with
  | nil => exact absurd rfl h
  | cons a t => simp [lastHasME, List.getLast?_cons_cons]

/-- With enough fuel, the decode loop succeeds on a structurally parseable
stream exactly when the MB/ME chaining flags are positioned correctly, and
then returns exactly the parsed records. -/
theorem decodeLoopF_characterization :
    ∀ {data : List Nat} {rs : List NdefRecord}, ParsesInto data rs →
    ∀ (first : Bool) (fuel : Nat), data.length < fuel →
    (decodeLoopF fuel data first = .ok rs ↔
      (mbOk first rs && lastHasME rs) = true) := by
  intro data rs hp
  induction hp with
  | single data r h =>
    intro first fuel hfuel
    cases fuel with
    | zero => omega
    | succ f =>
      simp only [decodeLoopF, h]
      cases hMB : hasFlag r.flags RecordFlags.MB <;>
        cases first <;>
          cases hME : hasFlag r.flags RecordFlags.ME <;>
            simp [mbOk, lastHasME, hMB, hME]
  | cons data rest r rs h hne ht ih =>
    intro first fuel hfuel
    cases fuel with
    | zero => omega
    | succ f =>
      have hlt : rest.length < data.length := (decode_ok_facts h).2
      have ihf := ih false f (by omega)
      have hrs : rs ≠ [] := parsesInto_ne_nil ht
      have hre : rest.isEmpty = false := by
        cases rest with
        | nil => exact absurd rfl hne
        | cons a t => rfl
      simp only [decodeLoopF, h, hre]
      rcases hdl : decodeLoopF f rest false with e | tail
      · rw [hdl] at ihf
        have hcond : (mbOk false rs && lastHasME rs) = false := by
          cases hc : (mbOk false rs && lastHasME rs) with
          | false => rfl
          | true => exact absurd (ihf.mpr hc) (by simp)
        cases hMB : hasFlag r.flags RecordFlags.MB <;> cases first <;>
          simp [mbOk, lastHasME_cons hrs, hMB, hre] <;>
            simp [mbOk] at hcond <;> tauto
      · rw [hdl] at ihf
        have htail : (tail = rs) ↔ (mbOk false rs && lastHasME rs) = true := by
          constructor
          · intro he; exact ihf.mp (by rw [he])
          · intro hc
            have hok := ihf.mpr hc
            injection hok
        cases hMB : hasFlag r.flags RecordFlags.MB <;> cases first <;>
          simp [mbOk, lastHasME_cons hrs, hMB, hre, htail]

theorem applyOp_flagsSmall {b : NdefRecordBuilder} (h : flagsSmall b.flags)
    (op : BuilderOp) : flagsSmall (b.applyOp op).flags := by
  cases op with
  | opId i =>
    simp only [NdefRecordBuilder.applyOp]
    split_ifs
    · exact h
    · show flagsSmall (b.flags ||| RecordFlags.IL)
      rcases h with h | h | h | h <;> rw [h] <;>
        simp only [flagsSmall, RecordFlags.IL] <;> decide
  | opTnf t => exact h
  | opPayload ty p =>
    simp only [NdefRecordBuilder.applyOp]
    split_ifs
    · show flagsSmall (b.flags ||| RecordFlags.SR)
      rcases h with h | h | h | h <;> rw [h] <;>
        simp only [flagsSmall, RecordFlags.SR] <;> decide
    · exact h

theorem foldl_flagsSmall (ops : List BuilderOp) :
    ∀ b : NdefRecordBuilder, flagsSmall b.flags →
      flagsSmall (ops.foldl NdefRecordBuilder.applyOp b).flags := by
  induction ops with
  | nil => intro b h; exact h
  | cons op ops ih =>
    intro b h
    exact ih _ (applyOp_flagsSmall h op)

theorem applyOps_flagsSmall (ops : List BuilderOp) :
    flagsSmall (NdefRecordBuilder.applyOps ops).flags :=
  foldl_flagsSmall ops NdefRecordBuilder.new (Or.inl rfl)

theorem foldl_SR (ops : List BuilderOp) :
    ∀ b : NdefRecordBuilder, flagsSmall b.flags →
      (hasFlag (ops.foldl NdefRecordBuilder.applyOp b).flags RecordFlags.SR = true ↔
        hasFlag b.flags RecordFlags.SR = true ∨
          ∃ ty p, BuilderOp.opPayload ty p ∈ ops ∧ p.length < 256) := by
  induction ops with
  | nil =>
    intro b h
    simp
  | cons op ops ih =>
    intro b hb
    rw [List.foldl_cons, ih (b.applyOp op) (applyOp_flagsSmall hb op)]
    cases op with
    | opId i =>
      have hsame : hasFlag (b.applyOp (.opId i)).flags RecordFlags.SR
          = hasFlag b.flags RecordFlags.SR := by
        simp only [NdefRecordBuilder.applyOp]
        split_ifs with hcase
        · rfl
        · show hasFlag (b.flags ||| RecordFlags.IL) RecordFlags.SR
              = hasFlag b.flags RecordFlags.SR
          rcases hb with h | h | h | h <;> rw [h] <;> decide
      rw [hsame]
      constructor
      · rintro (h | ⟨ty, p, hm, hl⟩)
        · exact Or.inl h
        · exact Or.inr ⟨ty, p, List.mem_cons_of_mem _ hm, hl⟩
      · rintro (h | ⟨ty, p, hm, hl⟩)
        · exact Or.inl h
        · rcases List.mem_cons.mp hm with he | hm2
          · exact absurd he (by simp)
          · exact Or.inr ⟨ty, p, hm2, hl⟩
    | opTnf t =>
      have hsame : hasFlag (b.applyOp (.opTnf t)).flags RecordFlags.SR
          = hasFlag b.flags RecordFlags.SR := rfl
      rw [hsame]
      constructor
      · rintro (h | ⟨ty, p, hm, hl⟩)
        · exact Or.inl h
        · exact Or.inr ⟨ty, p, List.mem_cons_of_mem _ hm, hl⟩
      · rintro (h | ⟨ty, p, hm, hl⟩)
        · exact Or.inl h
        · rcases List.mem_cons.mp hm with he | hm2
          · exact absurd he (by simp)
          · exact Or.inr ⟨ty, p, hm2, hl⟩
    | opPayload ty p =>
      by_cases hlen : p.length < 256
      · have hset : hasFlag (b.applyOp (.opPayload ty p)).flags RecordFlags.SR = true := by
          simp only [NdefRecordBuilder.applyOp, if_pos hlen]
          show hasFlag (b.flags ||| RecordFlags.SR) RecordFlags.SR = true
          rcases hb with h | h | h | h <;> rw [h] <;> decide
        rw [hset]
        constructor
        · intro _
          exact Or.inr ⟨ty, p, List.mem_cons_self _ _, hlen⟩
        · intro _
          exact Or.inl rfl
      · have hsame : hasFlag (b.applyOp (.opPayload ty p)).flags RecordFlags.SR
            = hasFlag b.flags RecordFlags.SR := by
          simp only [NdefRecordBuilder.applyOp, if_neg hlen]
        rw [hsame]
        constructor
        · rintro (h | ⟨ty2, p2, hm, hl⟩)
          · exact Or.inl h
          · exact Or.inr ⟨ty2, p2, List.mem_cons_of_mem _ hm, hl⟩
        · rintro (h | ⟨ty2, p2, hm, hl⟩)
          · exact Or.inl h
          · rcases List.mem_cons.mp hm with he | hm2
            · obtain ⟨hty, hp⟩ := by simpa using he
              subst hp
              exact absurd hl hlen
            · exact Or.inr ⟨ty2, p2, hm2, hl⟩

/-- C1: encode-then-decode does not round-trip for a builder-accepted
record carrying an ID: the encoder sets the IL bit (0x08) in the flag byte,
and the decoder's TNF lookup masks the flag byte with `0x0f`, so decoding
the encoded single-record message fails with the unknown-TNF error instead
of reproducing the record. -/
theorem c1_id_roundtrip_fails : c1roundtrip = .error "unknown tnf" := by
  rfl

/-- C2: record decode determines the TNF from the low FOUR bits of the flag
byte (`flags & 0x0f`), not the low three: on flag byte `0x09` (IL bit set,
TNF bits `001` = WellKnown) decode fails with the unknown-TNF error, while
the three-bit lookup the claim describes would yield `TNF::WellKnown`. -/
theorem c2_il_flag_decode_fails :
    NdefRecord.decode c2input = .error "unknown tnf" ∧
      TNF.fromRepr (0x09 &&& 0x07) = some TNF.WellKnown :=
  ⟨rfl, rfl⟩

/-- C3: on a byte stream that parses structurally into records,
`NdefMessage::decode` succeeds — returning exactly those records — if and
only if no record other than the first carries MB and the record that
exhausts the input carries ME. -/
theorem c3_decode_chaining_checks (data : List Nat) (rs : List NdefRecord)
    (hp : ParsesInto data rs) :
    NdefMessage.decode data = .ok rs ↔ (mbOk true rs && lastHasME rs) = true :=
  decodeLoopF_characterization hp true (data.length + 1) (by omega)

theorem c3_decode_chaining_checks_witness :
    NdefMessage.decode wire1 = .ok [wire1rec] :=
  (c3_decode_chaining_checks wire1 [wire1rec]
    (ParsesInto.single wire1 wire1rec (by rfl))).mpr (by decide)

set_option maxRecDepth 4000 in
/-- C4 counterexample: calling `payload()` twice, first with 255 bytes and
then with 256 bytes, leaves SR set on the final builder state although the
final payload is exactly 256 bytes — the claim's "SR clear otherwise, for
every sequence of builder calls" fails. -/
theorem c4_sr_sticky_counterexample :
    (NdefRecordBuilder.applyOps c4doubleOps).payload.length = 256 ∧
      hasFlag (NdefRecordBuilder.applyOps c4doubleOps).flags RecordFlags.SR = true :=
  ⟨rfl, rfl⟩

set_option maxRecDepth 8000 in
/-- C4 (amended): across every sequence of builder calls, SR is set iff
SOME `payload()` call supplied fewer than 256 bytes (SR is never cleared);
a single-call 255-byte payload builds with SR set and encodes its length in
one byte (`0xff`), and a single-call 256-byte payload builds with SR clear
and encodes its length as the 4-byte little-endian field `00 01 00 00`. -/
theorem c4_sr_policy_amended :
    (∀ ops : List BuilderOp,
       hasFlag (NdefRecordBuilder.applyOps ops).flags RecordFlags.SR = true ↔
         ∃ ty p, BuilderOp.opPayload ty p ∈ ops ∧ p.length < 256)
    ∧ NdefRecordBuilder.build (NdefRecordBuilder.applyOps c4ops255) = .ok c4rec255
    ∧ NdefRecord.toBuffer c4rec255 0 = [0x14, 0x01, 0xff, 0x54] ++ List.replicate 255 0xab
    ∧ NdefRecordBuilder.build (NdefRecordBuilder.applyOps c4ops256) = .ok c4rec256
    ∧ NdefRecord.toBuffer c4rec256 0
        = [0x04, 0x01, 0x00, 0x01, 0x00, 0x00, 0x54] ++ List.replicate 256 0xab := by
  refine ⟨?_, rfl, rfl, rfl, rfl⟩
  intro ops
  unfold NdefRecordBuilder.applyOps
  rw [foldl_SR ops NdefRecordBuilder.new (Or.inl rfl)]
  have h0 : hasFlag NdefRecordBuilder.new.flags RecordFlags.SR = false := by decide
  rw [h0]
  simp

/-- C5: building the WellKnown URI record for `weixin://dl/business` and
the External `android.com:pkg` / `com.tencent.mm` record and encoding them
as a 2-record message yields exactly the fixed 58-byte vector. -/
theorem c5_encode_vector : c5buffer = .ok c5Bytes := by
  rfl

set_option maxRecDepth 4000 in
/-- C6 counterexample: a builder whose record type is 256 bytes long builds
successfully — `build()` performs no length validation. -/
theorem c6_overlong_type_accepted :
    NdefRecordBuilder.build (NdefRecordBuilder.applyOps c6bigOps) = .ok c6bigRec := by
  rfl

/-- C6 (amended): `build()` fails exactly on the invalid-Empty check — TNF
`Empty` combined with a non-empty payload, non-empty record type, or a
present ID.  Over-long record types or IDs are accepted (their lengths are
truncated modulo 256 only later, at encode time). -/
theorem c6_build_validation_amended :
    ∀ b : NdefRecordBuilder,
      NdefRecordBuilder.build b = .error "Invalid empty record" ↔
        (b.tnf = TNF.Empty ∧ (b.payload ≠ [] ∨ b.recordType ≠ [] ∨ b.id ≠ none)) := by
  intro b
  unfold NdefRecordBuilder.build
  split_ifs with h1 h2
  · exact iff_of_true rfl h1
  · exact iff_of_false (by simp) h1
  · exact iff_of_false (by simp) h1

/-- C7 counterexample: no `NFT2Tag` has a declared capacity above 2048
bytes — the size byte `cc[2]` is a `u8`, so the capacity `cc[2] * 8` is at
most 2040 and the claim's "capacity above 2048 always fails" case is
unrealizable (the 2048 ceiling check in `to_bytes` is dead code). -/
theorem c7_no_capacity_above_2048 :
    ¬ ∃ t : NFT2Tag, t.cc2 < 256 ∧ 2048 < t.capacityInBytes := by
  rintro ⟨t, h1, h2⟩
  unfold NFT2Tag.capacityInBytes at h2
  omega

/-- C7 (amended): for every tag (whose size byte is a `u8`), `to_bytes`
fails with the invalid-memory-size error exactly when the concatenated TLV
bytes — their length truncated to `u16` — exceed the declared capacity; in
particular the tag declared with 16 bytes of capacity holding 19 serialized
TLV bytes fails. -/
theorem c7_to_bytes_amended :
    (∀ t : NFT2Tag, t.cc2 < 256 →
      (t.toBytes = .error "Invalid memory size" ↔
        t.capacityInBytes < (t.tlvs.map TlvValue.toBytes).flatten.length % 65536))
    ∧ tag16over.toBytes = .error "Invalid memory size" := by
  constructor
  · intro t hlt
    unfold NFT2Tag.toBytes
    have hcap : ¬ 2048 < t.capacityInBytes := by
      unfold NFT2Tag.capacityInBytes
      omega
    rw [if_neg hcap]
    show (if t.capacityInBytes < ((t.tlvs.map TlvValue.toBytes).flatten).length % 65536
          then (Except.error "Invalid memory size" : Except String (List Nat))
          else Except.ok ([t.cc0, t.cc1, t.cc2, t.cc3]
            ++ (t.tlvs.map TlvValue.toBytes).flatten))
        = Except.error "Invalid memory size" ↔ _
    split_ifs with h2
    · exact iff_of_true rfl h2
    · exact iff_of_false (by simp) h2
  · rfl

theorem c7_to_bytes_amended_witness :
    tag16over.toBytes = .error "Invalid memory size" :=
  (c7_to_bytes_amended.1 tag16over (by decide)).mpr (by decide)

/-- C8 counterexample: `NdefMessage::decode` of the empty buffer does not
return an empty message — the `loop` body runs at least once and the first
`read_u8` fails. -/
theorem c8_empty_decode_not_ok :
    ¬ (NdefMessage.decode [] = .ok []) := by
  intro h
  have h2 : (Except.error "read error" : Except String (List NdefRecord)) = .ok [] := h
  simp at h2

/-- C8 (amended): encoding an empty record sequence produces the empty
buffer, but decoding the empty buffer fails with a read error rather than
returning an empty message. -/
theorem c8_empty_buffer_amended :
    NdefMessage.toBuffer [] = [] ∧
      NdefMessage.decode [] = .error "read error" :=
  ⟨rfl, rfl⟩

/-- C9 counterexample: a record obtained by decoding wire bytes keeps the
raw flag byte, TNF bits included: decoding flag byte `0xd1` yields a record
with `flags & 0b0010_0111 = 1 ≠ 0`. -/
theorem c9_decoded_flags_counterexample :
    NdefRecord.decode wire1 = .ok (wire1rec, []) ∧
      wire1rec.flags &&& 0x27 ≠ 0 :=
  ⟨rfl, by decide⟩

/-- C9 (amended): records produced by the builder carry only the SR and IL
bits (so MB, ME, CF and the TNF bits are all clear), while records produced
by decoding store the entire raw wire flag byte, including its TNF bits. -/
theorem c9_flags_amended :
    (∀ (ops : List BuilderOp) (r : NdefRecord),
        NdefRecordBuilder.build (NdefRecordBuilder.applyOps ops) = .ok r →
          r.flags &&& 0xe7 = 0)
    ∧ (∀ (data : List Nat) (r : NdefRecord) (rest : List Nat),
        NdefRecord.decode data = .ok (r, rest) → r.flags = data.headD 0) := by
  constructor
  · intro ops r hb
    have hf := applyOps_flagsSmall ops
    unfold NdefRecordBuilder.build at hb
    split_ifs at hb
    all_goals
      rw [Except.ok.injEq] at hb
      subst hb
      show (NdefRecordBuilder.applyOps ops).flags &&& 0xe7 = 0
      rcases hf with h | h | h | h <;> rw [h] <;> decide
  · intro data r rest h
    exact (decode_ok_facts h).1

theorem c9_flags_amended_witness :
    c9rec.flags &&& 0xe7 = 0 ∧ wire1rec.flags = 0xd1 := by
  constructor
  · exact c9_flags_amended.1 c9ops c9rec (by rfl)
  · exact c9_flags_amended.2 wire1 wire1rec [] (by rfl)

/-- C10: `UriPayload::try_from` on a builder-reachable WellKnown `U` record
with an empty payload reaches the unchecked `payload[0]` index and panics
(modelled as `none`) instead of returning an error `Result`. -/
theorem c10_uri_tryfrom_empty_payload_panics :
    UriPayload.tryFrom c10rec = none ∧
      NdefRecordBuilder.build (NdefRecordBuilder.applyOps c10ops) = .ok c10rec :=
  ⟨rfl, rfl⟩

end Ndef
